import Mathlib

/-!
Verification development for the llm-gate gateway (Cloudflare Workers, TypeScript).
Each section embeds one part of the source as executable Lean definitions; theorems
about the claims follow at the end of the file.

Strings coming from the JS runtime are modelled as `List Char` where character-level
reasoning is needed (SSE payloads, upstream bodies) and as `String` elsewhere.
-/

namespace LlmGate

/-! ### SSE stream transformer — `createSSETransformer` in `src/core/stream.ts`

The transformer buffers incoming bytes, splits the buffer on the SSE event
separator `"\n\n"`, and for every complete event either re-emits it or drops it
as a duplicate.  `JSON.parse` of a `data:` payload is abstracted as a
`ParseOracle`: the transformer only ever inspects whether parsing throws,
whether `choices[0].delta` exists, and the value of `delta.content`. -/

/-- What the transformer observes of `JSON.parse(dataStr)`:
`fail` — parsing throws; `noDelta` — parsed but `choices[0].delta` missing;
`delta none` — delta present, `content` absent or null;
`delta (some c)` — delta present with string content `c` (possibly empty). -/
inductive ParseResult where
  | fail : ParseResult
  | noDelta : ParseResult
  | delta : Option (List Char) → ParseResult
deriving DecidableEq

abbrev ParseOracle := List Char → ParseResult

/-- Whitespace stripped by JS `String.prototype.trim` (the characters that can
occur in SSE event frames). -/
def isWs (c : Char) : Bool := c = ' ' || c = '\n' || c = '\t' || c = '\r'

/-- Model of JS `String.prototype.trim`. -/
def trimL (l : List Char) : List Char :=
  ((l.dropWhile isWs).reverse.dropWhile isWs).reverse

/-- The `"data: "` event marker tested with `event.startsWith("data: ")`. -/
def dataMark : List Char := "data: ".data

/-- The `"[DONE]"` terminator payload. -/
def doneLit : List Char := "[DONE]".data

/-- One iteration of the `for (const event of events)` body in
`createSSETransformer` (src/core/stream.ts lines 29-71).  Returns
`(emitted?, new lastContent)`. -/
def processEvent (P : ParseOracle) (last : List Char) (ev : List Char) :
    Bool × List Char :=
  if trimL ev = [] then (false, last)
  else if dataMark <+: ev then
    let dataStr := ev.drop 6
    if trimL dataStr = doneLit then (true, last)
    else
      match P dataStr with
      | .delta (some content) =>
          if content ≠ [] ∧ content = last then (false, last)
          else (true, if content ≠ [] then content else last)
      | _ => (true, last)
  else (true, last)

/-- Process a list of complete events in order, threading `lastContent` and
collecting the events that are re-emitted. -/
def processEvents (P : ParseOracle) (last : List Char) :
    List (List Char) → List (List Char) × List Char
  | [] => ([], last)
  | ev :: rest =>
      let r := processEvent P last ev
      let rec' := processEvents P r.2 rest
      (if r.1 then ev :: rec'.1 else rec'.1, rec'.2)

/-- Greedy left-to-right split on the two-character separator `"\n\n"`,
the semantics of JS `buffer.split("\n\n")` for this fixed separator. -/
def splitEvts : List Char → List (List Char)
  | [] => [[]]
  | '\n' :: '\n' :: rest => [] :: splitEvts rest
  | c :: rest =>
      match splitEvts rest with
      | [] => [[c]]
      | h :: t => (c :: h) :: t

/-- Mutable state captured by the transformer closure: the carry-over `buffer`
and the `lastContent` de-duplication marker. -/
structure SSEState where
  buffer : List Char
  lastContent : List Char
deriving DecidableEq

def initialSSEState : SSEState := ⟨[], []⟩

/-- One `transform(chunk, controller)` call: append the chunk to the buffer,
split on `"\n\n"`, keep the final (incomplete) part as the new buffer, process
all complete events.  Returns the new state and the events enqueued (each is
enqueued as `event ++ "\n\n"` in the source; we record the event text). -/
def transformChunk (P : ParseOracle) (st : SSEState) (chunk : List Char) :
    SSEState × List (List Char) :=
  if chunk = [] then (st, [])
  else
    let parts := splitEvts (st.buffer ++ chunk)
    let buf' := parts.getLastD []
    let evs := parts.dropLast
    let r := processEvents P st.lastContent evs
    (⟨buf', r.2⟩, r.1)

/-- Run the transformer over a whole sequence of chunks. -/
def runChunks (P : ParseOracle) (st : SSEState) :
    List (List Char) → SSEState × List (List Char)
  | [] => (st, [])
  | ch :: rest =>
      let r := transformChunk P st ch
      let r' := runChunks P r.1 rest
      (r'.1, r.2 ++ r'.2)

/-- The complete events emitted by the transformer for an input chunk sequence
(the `flush` callback additionally writes out the residual incomplete buffer,
which never forms a complete SSE event; see `flushOutput`). -/
def emittedEvents (P : ParseOracle) (chunks : List (List Char)) : List (List Char) :=
  (runChunks P initialSSEState chunks).2

/-- The `flush(controller)` callback: the leftover buffer is enqueued raw
(without an event separator) if non-empty. -/
def flushOutput (st : SSEState) : List (List Char) :=
  if st.buffer ≠ [] then [st.buffer] else []

/-- The `delta.content` of an emitted event as far as duplicate suppression is
concerned: `some c` iff the event is a `data:` event, not `[DONE]`, its payload
parses with `choices[0].delta.content` a non-empty string `c`. -/
def eventTruthyContent (P : ParseOracle) (ev : List Char) : Option (List Char) :=
  if dataMark <+: ev ∧ trimL (ev.drop 6) ≠ doneLit then
    match P (ev.drop 6) with
    | .delta (some c) => if c ≠ [] then some c else none
    | _ => none
  else none

/-- Two adjacent output events are allowed together unless both carry the same
non-empty parsed `delta.content`. -/
def dupFree (P : ParseOracle) (a b : List Char) : Prop :=
  ∀ c, eventTruthyContent P a = some c → eventTruthyContent P b ≠ some c

/-! ### Quota manager — `QuotaManager` in `src/core/quota.ts`

The manager keeps three write-behind buffers (`pendingUsageWrites`,
`pendingAuditWrites`, `globalBuffer`), an in-memory per-minute RPM table and a
short-lived usage cache.  Buffered deltas are later flushed to the D1 tables
`usage_stats`, `request_audit_minute` and `global_monitor`; the claims below are
about what each operation buffers, so the embedding models the buffers as total
maps from key strings to accumulated deltas.  `getBeijingDate()` /
`getBeijingMinuteBucket()` are injected as a `QuotaClock`, and the daily-usage
snapshot read (`getUsageSnapshot`: usage cache or D1) is passed to `checkQuota`
as an input. -/

inductive UsageKind where
  | chat : UsageKind
  | search : UsageKind
deriving DecidableEq

def kindStr : UsageKind → String
  | .chat => "chat"
  | .search => "search"

inductive LimitReason where
  | daily : LimitReason
  | rpm : LimitReason
deriving DecidableEq

def reasonStr : LimitReason → String
  | .daily => "daily"
  | .rpm => "rpm"

structure RpmBucket where
  minute : Nat
  count : Nat
deriving DecidableEq

structure UsageByType where
  chat : Nat
  search : Nat
deriving DecidableEq

def UsageByType.get : UsageByType → UsageKind → Nat
  | u, .chat => u.chat
  | u, .search => u.search

def UsageByType.bump (u : UsageByType) : UsageKind → Nat → UsageByType
  | .chat, d => ⟨u.chat + d, u.search⟩
  | .search, d => ⟨u.chat, u.search + d⟩

structure CachedUsage where
  expiresAt : Nat
  usage : UsageByType
deriving DecidableEq

/-- The buffered/in-memory state of the singleton `QuotaManager`. -/
structure QuotaState where
  pendingUsage : String → Nat
  pendingAudit : String → Nat
  globalBuf : String → Nat
  rpmData : String → Option (UsageKind → RpmBucket)
  usageCache : String → Option CachedUsage

def emptyQuotaState : QuotaState :=
  ⟨fun _ => 0, fun _ => 0, fun _ => 0, fun _ => none, fun _ => none⟩

/-- The two Beijing-time bucket labels used as partition keys. -/
structure QuotaClock where
  date : String
  minute : String

/-- The four configured limits (`chatDailyLimit` etc., set via `setLimits`). -/
structure Limits where
  chatDaily : Nat
  chatRpm : Nat
  searchDaily : Nat
  searchRpm : Nat

/-- Defaults in the class initializers. -/
def defaultLimits : Limits := ⟨2000, 60, 0, 0⟩

def dailyLimitOf (l : Limits) : UsageKind → Nat
  | .chat => l.chatDaily
  | .search => l.searchDaily

def rpmLimitOf (l : Limits) : UsageKind → Nat
  | .chat => l.chatRpm
  | .search => l.searchRpm

/-- `normalizeProviderId`: strip a leading `"./"`. -/
def normalizeProviderId (p : String) : String :=
  if "./".data <+: p.data then ⟨p.data.drop 2⟩ else p

/-- Key of a `pendingUsageWrites` entry: `date|cleanId|kind`. -/
def usageKey (date cleanId : String) (k : UsageKind) : String :=
  date ++ "|" ++ cleanId ++ "|" ++ kindStr k

/-- Key of a `pendingAuditWrites` entry: `minuteBucket|cleanId|kind|outcome`. -/
def auditKey (minute cleanId : String) (k : UsageKind) (outcome : String) : String :=
  minute ++ "|" ++ cleanId ++ "|" ++ kindStr k ++ "|" ++ outcome

/-- `getRpmCount`: the in-memory count for the current minute, 0 if the stored
bucket belongs to another minute. -/
def getRpmCount (s : QuotaState) (nowMin : Nat) (p : String) (k : UsageKind) : Nat :=
  match s.rpmData (normalizeProviderId p) with
  | none => 0
  | some entry => if (entry k).minute = nowMin then (entry k).count else 0

/-- `bumpRpm`: create the per-provider bucket pair on first use, reset a stale
bucket to the current minute, then increment. -/
def bumpRpm (s : QuotaState) (nowMin : Nat) (p : String) (k : UsageKind) : QuotaState :=
  let cleanId := normalizeProviderId p
  let entry := match s.rpmData cleanId with
    | none => fun _ => (⟨nowMin, 0⟩ : RpmBucket)
    | some e => e
  let b := entry k
  let b' : RpmBucket := if b.minute = nowMin then ⟨nowMin, b.count + 1⟩ else ⟨nowMin, 1⟩
  { s with rpmData := fun q =>
      if q = cleanId then some (fun k2 => if k2 = k then b' else entry k2)
      else s.rpmData q }

/-- `mergeUsageToCache`: optimistic +delta on the cached daily snapshot. -/
def mergeUsageToCache (s : QuotaState) (nowMs : Nat) (p : String) (k : UsageKind)
    (delta : Nat) : QuotaState :=
  let cleanId := normalizeProviderId p
  let usage := match s.usageCache cleanId with
    | some c => c.usage
    | none => (⟨0, 0⟩ : UsageByType)
  let usage' := usage.bump k delta
  { s with usageCache := fun q =>
      if q = cleanId then some ⟨nowMs + 5000, usage'⟩ else s.usageCache q }

/-- `bufferUsage`: accumulate a delta under `date|cleanId|kind`. -/
def bufferUsage (clock : QuotaClock) (s : QuotaState) (p : String) (k : UsageKind)
    (count : Nat) : QuotaState :=
  let key := usageKey clock.date (normalizeProviderId p) k
  { s with pendingUsage := fun q =>
      if q = key then s.pendingUsage q + count else s.pendingUsage q }

/-- `bufferAudit`: accumulate a delta under `minute|cleanId|kind|outcome`. -/
def bufferAudit (clock : QuotaClock) (s : QuotaState) (p : String) (k : UsageKind)
    (outcome : String) (count : Nat) : QuotaState :=
  let key := auditKey clock.minute (normalizeProviderId p) k outcome
  { s with pendingAudit := fun q =>
      if q = key then s.pendingAudit q + count else s.pendingAudit q }

/-- `bumpGlobal`: accumulate a delta on a `global_monitor` key. -/
def bumpGlobal (s : QuotaState) (key : String) (count : Nat) : QuotaState :=
  { s with globalBuf := fun q =>
      if q = key then s.globalBuf q + count else s.globalBuf q }

/-- The audit outcome recorded by `recordFailure`. -/
def auditOutcomeOfFailure (reason : String) : String := "error:" ++ reason

/-- The audit outcome recorded by `recordLimitHit`. -/
def auditOutcomeOfLimit (r : LimitReason) : String := "limited:" ++ reasonStr r

/-- `incrementUsage` (src/core/quota.ts lines 213-225), up to the D1 flush:
bump RPM, buffer one usage delta, one `success` audit delta, bump the
`<kind>_total` and `<kind>_success` globals, refresh the usage cache. -/
def incrementUsage (clock : QuotaClock) (nowMin nowMs : Nat) (p : String)
    (k : UsageKind) (s : QuotaState) : QuotaState :=
  let s1 := bumpRpm s nowMin p k
  let s2 := bufferUsage clock s1 p k 1
  let s3 := bufferAudit clock s2 p k "success" 1
  let s4 := bumpGlobal s3 (kindStr k ++ "_total") 1
  let s5 := bumpGlobal s4 (kindStr k ++ "_success") 1
  mergeUsageToCache s5 nowMs p k 1

/-- `recordFailure` (lines 227-235), up to the D1 flush. -/
def recordFailure (clock : QuotaClock) (nowMin nowMs : Nat) (p : String)
    (k : UsageKind) (reason : String) (s : QuotaState) : QuotaState :=
  let s1 := bumpRpm s nowMin p k
  let s2 := bufferUsage clock s1 p k 1
  let s3 := bufferAudit clock s2 p k (auditOutcomeOfFailure reason) 1
  let s4 := bumpGlobal s3 (kindStr k ++ "_total") 1
  let s5 := bumpGlobal s4 (kindStr k ++ "_error") 1
  mergeUsageToCache s5 nowMs p k 1

/-- `recordLimitHit` (lines 237-245), up to the D1 flush.  Note that it, too,
buffers a `+1` delta on the daily usage partition. -/
def recordLimitHit (clock : QuotaClock) (nowMin nowMs : Nat) (p : String)
    (k : UsageKind) (r : LimitReason) (s : QuotaState) : QuotaState :=
  let s1 := bumpRpm s nowMin p k
  let s2 := bufferUsage clock s1 p k 1
  let s3 := bufferAudit clock s2 p k (auditOutcomeOfLimit r) 1
  let s4 := bumpGlobal s3 (kindStr k ++ "_total") 1
  let s5 := bumpGlobal s4 (kindStr k ++ "_rate_limited") 1
  mergeUsageToCache s5 nowMs p k 1

structure CheckResult where
  allowed : Bool
  reason : Option LimitReason
deriving DecidableEq

/-- `checkQuota` (lines 192-211).  `snapshot` is the value returned by
`getUsageSnapshot` (usage cache or D1) for this provider. -/
def checkQuota (lims : Limits) (clock : QuotaClock) (nowMin nowMs : Nat)
    (snapshot : UsageByType) (p : String) (k : UsageKind) (s : QuotaState) :
    CheckResult × QuotaState :=
  let dailyUsed := snapshot.get k
  let rpmUsed := getRpmCount s nowMin p k
  let dailyLimit := dailyLimitOf lims k
  let rpmLimit := rpmLimitOf lims k
  if dailyLimit > 0 ∧ dailyUsed ≥ dailyLimit then
    (⟨false, some .daily⟩, recordLimitHit clock nowMin nowMs p k .daily s)
  else if rpmLimit > 0 ∧ rpmUsed ≥ rpmLimit then
    (⟨false, some .rpm⟩, recordLimitHit clock nowMin nowMs p k .rpm s)
  else (⟨true, none⟩, s)

/-! ### Provider rotation — `MultiQwenProvider.handleChatCompletion`
(src/unnamed/part_004 lines 190-230; the same loop structure appears in
`src/src/providers/qwen/multiProvider.ts` lines 130-173 and in
`handleWebSearch`).

The loop is abstracted per candidate by three observations: whether
`provider.canAttempt()` holds (circuit-breaker cooldown), whether
`quotaManager.checkQuota` allows the request (admission), and whether the
upstream call succeeds once attempted. -/

structure PoolProvider where
  canAttempt : Bool
  quotaAllowed : Bool
  succeeds : Bool
deriving DecidableEq

structure DispatchResult where
  finalIndex : Nat
  winner : Option Nat
  attempted : List Nat
deriving DecidableEq

/-- The body of `for (let attempt = 0; attempt < availableProviders; attempt++)`:
`attempt` is the loop counter, `fuel` the remaining iterations, `cur` the
current value of `this.currentIndex`, `acc` the reversed list of indices
actually attempted so far. -/
def dispatchGo (ps : List PoolProvider) (start : Nat) :
    Nat → Nat → Nat → List Nat → DispatchResult
  | _, 0, cur, acc => ⟨cur, none, acc.reverse⟩
  | attempt, fuel + 1, cur, acc =>
      if ¬(ps.getD ((start + attempt) % ps.length) ⟨true, true, true⟩).canAttempt
          ∧ attempt < ps.length - 1 then
        dispatchGo ps start (attempt + 1) fuel cur acc
      else if ¬(ps.getD ((start + attempt) % ps.length) ⟨true, true, true⟩).quotaAllowed then
        dispatchGo ps start (attempt + 1) fuel cur acc
      else if (ps.getD ((start + attempt) % ps.length) ⟨true, true, true⟩).succeeds then
        ⟨if attempt = 0 then ((start + attempt) % ps.length + 1) % ps.length else cur,
         some ((start + attempt) % ps.length),
         ((start + attempt) % ps.length :: acc).reverse⟩
      else
        dispatchGo ps start (attempt + 1) fuel
          (if attempt = 0 then ((start + attempt) % ps.length + 1) % ps.length else cur)
          ((start + attempt) % ps.length :: acc)

/-- A whole dispatch over the pool starting at `this.currentIndex = start`. -/
def runDispatch (ps : List PoolProvider) (start : Nat) : DispatchResult :=
  dispatchGo ps start 0 ps.length start []

/-! ### Upstream HTTP 429 classification — `QwenProvider.handleChatCompletion`
(src/src/providers/qwen/provider.ts lines 199-209).

`upstreamBody.toLowerCase()` is modelled character-wise with `Char.toLower`
(the needles and realistic upstream bodies are ASCII), and JS
`String.prototype.includes` as list-infix occurrence. -/

def quotaNeedle1 : List Char := "insufficient_quota".data

def quotaNeedle2 : List Char := "free allocated quota exceeded".data

structure Resp429 where
  reason : String
  message : String
deriving DecidableEq

/-- The reason passed to `quotaManager.recordFailure` and the error message
thrown for an upstream 429 response with the given body. -/
def classify429 (body : List Char) : Resp429 :=
  let bodyLower := body.map Char.toLower
  if quotaNeedle1 <:+: bodyLower ∨ quotaNeedle2 <:+: bodyLower then
    ⟨"upstream_quota_exceeded", "Quota exceeded (Qwen free tier)"⟩
  else ⟨"upstream_429", "Rate limited"⟩

/-- Case-insensitive occurrence of an (already lower-case) needle in a body:
some contiguous run of the body lower-cases to the needle. -/
def occursCaseInsensitive (needle body : List Char) : Prop :=
  ∃ l, l <:+: body ∧ l.map Char.toLower = needle

/-! ### OAuth credential lifecycle — `QwenAuthManager` in
`src/src/providers/qwen/auth.ts`.

Storage reads (`loadCredentials(true)`, a KV read behind a 5 s memory cache,
with a one-time legacy-key migration) are abstracted as oracles returning the
`QwenCredentials` the manager would observe; network and storage side effects
are recorded in an `AuthEffect` trace. -/

structure QwenCredentials where
  access_token : String
  refresh_token : String
  expiry_date : Option Int
  resource_url : Option String
  aliasName : Option String
deriving DecidableEq

inductive AuthEffect where
  | acquireLock : String → Nat → AuthEffect
  | releaseLock : String → AuthEffect
  | sleep : Nat → AuthEffect
  | loadCreds : AuthEffect
  | tokenEndpointPost : AuthEffect
  | saveCreds : QwenCredentials → AuthEffect
deriving DecidableEq

/-- The fields of a token-endpoint JSON response that `refreshToken` reads. -/
structure TokenResponse where
  access_token : String
  refresh_token : Option String
  token_type : Option String
  resource_url : Option String
  expires_in : Int
  scope : Option String
deriving DecidableEq

/-- Outcome of the `fetch` to the OAuth token endpoint. -/
inductive UpstreamResult where
  | httpError : Nat → String → UpstreamResult
  | badJson : UpstreamResult
  | json : TokenResponse → UpstreamResult
deriving DecidableEq

/-- Environment of one `refreshToken` call: the distributed-lock outcome, the
successive results of forced credential loads (`reads i` is what the `i`-th
`loadCredentials(true)` returns), the memory-cached credentials, the token
endpoint's response if called, and `Date.now()`. -/
structure RefreshEnv where
  lockToken : Option String
  reads : Nat → Option QwenCredentials
  memory : Option QwenCredentials
  upstream : UpstreamResult
  nowMs : Int

/-- `waitForTokenUpdate` (auth.ts lines 218-228): up to `fuel` rounds of
(500 ms sleep; forced load), indexed from `i`, returning the first stored
credential whose `refresh_token` differs from `oldRt`. -/
def waitLoop (reads : Nat → Option QwenCredentials) (oldRt : String) :
    Nat → Nat → Except String QwenCredentials × List AuthEffect
  | _, 0 => (.error "Timeout or failure waiting for token update", [])
  | i, fuel + 1 =>
      let effs : List AuthEffect := [.sleep 500, .loadCreds]
      match reads i with
      | some c =>
          if c.refresh_token ≠ oldRt then (.ok c, effs)
          else
            let r := waitLoop reads oldRt (i + 1) fuel
            (r.1, effs ++ r.2)
      | none =>
          let r := waitLoop reads oldRt (i + 1) fuel
          (r.1, effs ++ r.2)

def waitForTokenUpdate (reads : Nat → Option QwenCredentials) (oldRt : String) :
    Except String QwenCredentials × List AuthEffect :=
  waitLoop reads oldRt 0 30

/-- The real-refresh path of `refreshToken` once the lock is held and the
fresh load did not already contain a rotated token: POST to the token
endpoint, map failures, save the rebuilt credentials. -/
def refreshUpstream (env : RefreshEnv) (oldRt : String) (acq rel : AuthEffect) :
    Except String QwenCredentials × List AuthEffect :=
  match env.upstream with
  | .httpError status body =>
      if status = 400 ∨ status = 401 then
        (.error "AUTH_EXPIRED", [acq, .loadCreds, .tokenEndpointPost, rel])
      else
        (.error ("HTTP " ++ toString status ++ ": " ++ body),
         [acq, .loadCreds, .tokenEndpointPost, rel])
  | .badJson => (.error "AUTH_EXPIRED", [acq, .loadCreds, .tokenEndpointPost, rel])
  | .json data =>
      let creds : QwenCredentials :=
        { access_token := data.access_token
          refresh_token := data.refresh_token.getD oldRt
          expiry_date := some (env.nowMs + data.expires_in * 1000)
          resource_url := match data.resource_url with
            | some u => some u
            | none => match env.memory with
              | some m => m.resource_url
              | none => none
          aliasName := match env.memory with
            | some m => m.aliasName
            | none => none }
      (.ok creds, [acq, .loadCreds, .tokenEndpointPost, .saveCreds creds, rel])

/-- `refreshToken` (auth.ts lines 154-216) for the manager keyed by
`credsKey`.  The lock name is `token_refresh:<credsKey>` with a 60 s TTL;
when acquisition fails the call degrades to `waitForTokenUpdate`. -/
def refreshTokenM (env : RefreshEnv) (credsKey oldRt : String) :
    Except String QwenCredentials × List AuthEffect :=
  let lockName := "token_refresh:" ++ credsKey
  let acq : AuthEffect := .acquireLock lockName 60
  match env.lockToken with
  | none =>
      let w := waitForTokenUpdate env.reads oldRt
      (w.1, acq :: w.2)
  | some _ =>
      let rel : AuthEffect := .releaseLock lockName
      match env.reads 0 with
      | some latest =>
          if latest.access_token ≠ "" ∧ latest.refresh_token ≠ oldRt then
            (.ok latest, [acq, .loadCreds, rel])
          else
            refreshUpstream env oldRt acq rel
      | none => refreshUpstream env oldRt acq rel

/-- Poll `i` of `waitForTokenUpdate` observes a credential whose refresh token
differs from `oldRt`. -/
def pollDiffers (reads : Nat → Option QwenCredentials) (oldRt : String) (i : Nat) : Prop :=
  ∃ c, reads i = some c ∧ c.refresh_token ≠ oldRt

/-- Outcome of `getValidCredentials` (auth.ts lines 273-284). -/
inductive GetValidOutcome where
  | noCreds : GetValidOutcome
  | refreshed : String → GetValidOutcome
  | returned : QwenCredentials → GetValidOutcome
deriving DecidableEq

/-- The 5-minute refresh safety window in milliseconds. -/
def refreshWindowMs : Int := 300000

/-- The expiry test `if (expiresAt && now >= expiresAt - 300000)` where
`expiresAt = creds.expiry_date || 0`. -/
def shouldRefreshAt (now : Int) (c : QwenCredentials) : Bool :=
  let expiresAt := c.expiry_date.getD 0
  decide (expiresAt ≠ 0 ∧ now ≥ expiresAt - refreshWindowMs)

/-- `getValidCredentials`: `loaded` is the result of `loadCredentials()`;
`refreshed rt` marks the call `refreshToken(creds.refresh_token)`. -/
def getValidCredentialsM (loaded : Option QwenCredentials) (now : Int) :
    GetValidOutcome :=
  match loaded with
  | none => .noCreds
  | some c => if shouldRefreshAt now c then .refreshed c.refresh_token else .returned c

/-- A concrete parse oracle used to exercise the transformer on a stream whose
payload `p1` carries `delta.content = "x"` and everything else fails to parse. -/
def sampleOracle : ParseOracle := fun payload =>
  if payload = "p1".data then ParseResult.delta (some ['x']) else ParseResult.fail

/-- A concrete parse oracle whose every payload parses to a delta with absent
content. -/
def emptyDeltaOracle : ParseOracle := fun _ => ParseResult.delta none

/-! ## Theorems -/

/-! ### C5 — admission decision of `checkQuota` -/

/-- C5: `checkQuota` denies with reason `daily` iff the configured daily limit
is positive and the snapshot daily usage has reached it; otherwise it denies
with reason `rpm` iff the configured rpm limit is positive and the
current-minute count has reached it; otherwise it allows.  A limit configured
as 0 is never enforced, so with both limits 0 the check always allows. -/
theorem checkQuota_decision (lims : Limits) (clock : QuotaClock) (nowMin nowMs : Nat)
    (snapshot : UsageByType) (p : String) (k : UsageKind) (s : QuotaState) :
    ((checkQuota lims clock nowMin nowMs snapshot p k s).1 = ⟨false, some .daily⟩ ↔
      dailyLimitOf lims k > 0 ∧ snapshot.get k ≥ dailyLimitOf lims k)
    ∧ ((checkQuota lims clock nowMin nowMs snapshot p k s).1 = ⟨false, some .rpm⟩ ↔
      ¬(dailyLimitOf lims k > 0 ∧ snapshot.get k ≥ dailyLimitOf lims k) ∧
        (rpmLimitOf lims k > 0 ∧ getRpmCount s nowMin p k ≥ rpmLimitOf lims k))
    ∧ ((checkQuota lims clock nowMin nowMs snapshot p k s).1 = ⟨true, none⟩ ↔
      ¬(dailyLimitOf lims k > 0 ∧ snapshot.get k ≥ dailyLimitOf lims k) ∧
        ¬(rpmLimitOf lims k > 0 ∧ getRpmCount s nowMin p k ≥ rpmLimitOf lims k))
    ∧ (dailyLimitOf lims k = 0 → rpmLimitOf lims k = 0 →
      (checkQuota lims clock nowMin nowMs snapshot p k s).1 = ⟨true, none⟩) := by
  by_cases hd : dailyLimitOf lims k > 0 ∧ snapshot.get k ≥ dailyLimitOf lims k
  · simp [checkQuota, hd]
    omega
  · by_cases hr : rpmLimitOf lims k > 0 ∧ getRpmCount s nowMin p k ≥ rpmLimitOf lims k
    · simp [checkQuota, hd, hr]
      omega
    · simp [checkQuota, hd, hr]

/-- C5 witness: with both limits configured to 0 the check allows. -/
theorem checkQuota_decision_witness :
    (checkQuota ⟨0, 0, 0, 0⟩ ⟨"2025-01-01", "2025-01-01 00:00"⟩ 7 0
      ⟨999999, 0⟩ "acct" .chat emptyQuotaState).1 = ⟨true, none⟩ :=
  (checkQuota_decision ⟨0, 0, 0, 0⟩ ⟨"2025-01-01", "2025-01-01 00:00"⟩ 7 0
    ⟨999999, 0⟩ "acct" .chat emptyQuotaState).2.2.2 rfl rfl

/-! ### C4 — deltas buffered by a successful dispatch -/

/-- One buffered `+1` on key `k1`, read back at an arbitrary key. -/
theorem update1 (f : String → Nat) (k1 q : String) :
    (if q = k1 then f q + 1 else f q) = f q + (if q = k1 then 1 else 0) := by
  by_cases h : q = k1 <;> simp_all

/-- Two successively buffered `+1`s on keys `k1` then `k2`. -/
theorem update2 (f : String → Nat) (k1 k2 q : String) :
    (if q = k2 then (if q = k1 then f q + 1 else f q) + 1
      else if q = k1 then f q + 1 else f q) =
    f q + (if q = k1 then 1 else 0) + (if q = k2 then 1 else 0) := by
  by_cases h1 : q = k1 <;> by_cases h2 : q = k2 <;> simp_all

/-- C4: `incrementUsage` buffers exactly one `+1` usage delta on the partition
`(today, provider, kind)`, exactly one `+1` audit delta with outcome `success`
on the current minute bucket, and `+1` deltas on the two global counters
`<kind>_total` and `<kind>_success` — and no delta on any other key of the
three write-behind buffers. -/
theorem success_dispatch_buffered_deltas (clock : QuotaClock) (nowMin nowMs : Nat)
    (p : String) (k : UsageKind) (s : QuotaState) :
    (incrementUsage clock nowMin nowMs p k s).pendingUsage =
      (fun q => s.pendingUsage q +
        if q = usageKey clock.date (normalizeProviderId p) k then 1 else 0)
    ∧ (incrementUsage clock nowMin nowMs p k s).pendingAudit =
      (fun q => s.pendingAudit q +
        if q = auditKey clock.minute (normalizeProviderId p) k "success" then 1 else 0)
    ∧ (incrementUsage clock nowMin nowMs p k s).globalBuf =
      (fun q => s.globalBuf q + (if q = kindStr k ++ "_total" then 1 else 0) +
        (if q = kindStr k ++ "_success" then 1 else 0)) := by
  refine ⟨funext fun q => ?_, funext fun q => ?_, funext fun q => ?_⟩ <;>
    simp only [incrementUsage, bumpRpm, bufferUsage, bufferAudit, bumpGlobal,
      mergeUsageToCache]
  · exact update1 s.pendingUsage _ q
  · exact update1 s.pendingAudit _ q
  · exact update2 s.globalBuf _ _ q

/-! ### C3 — deltas buffered by a rejected-at-admission dispatch -/

/-- C3 counterexample: a denial *does* buffer a `+1` delta on the daily usage
partition, so the claim that `usage_stats` is left unchanged fails.  With a
daily limit of 1 and a snapshot of 1, the check denies with reason `daily`
and the pending usage delta for today's partition becomes 1 (it was 0). -/
theorem limit_hit_usage_counterexample :
    (checkQuota ⟨1, 60, 0, 0⟩ ⟨"2025-01-01", "2025-01-01 00:00"⟩ 0 0
        ⟨1, 0⟩ "acct" .chat emptyQuotaState).1 = ⟨false, some .daily⟩
    ∧ ¬((checkQuota ⟨1, 60, 0, 0⟩ ⟨"2025-01-01", "2025-01-01 00:00"⟩ 0 0
        ⟨1, 0⟩ "acct" .chat emptyQuotaState).2.pendingUsage
          (usageKey "2025-01-01" "acct" .chat) =
        emptyQuotaState.pendingUsage (usageKey "2025-01-01" "acct" .chat)) := by
  decide

/-- C3 (amended): a dispatch rejected at admission buffers exactly one `+1`
delta on the daily usage partition `(today, provider, kind)` — rejections are
counted into daily usage just like successes — together with exactly one `+1`
audit delta with outcome `limited:<reason>` and `+1` deltas on the global
counters `<kind>_total` and `<kind>_rate_limited`, and no delta on any other
key of the three buffers. -/
theorem limit_hit_buffered_deltas (lims : Limits) (clock : QuotaClock)
    (nowMin nowMs : Nat) (snapshot : UsageByType) (p : String) (k : UsageKind)
    (s : QuotaState) (r : LimitReason)
    (h : (checkQuota lims clock nowMin nowMs snapshot p k s).1 = ⟨false, some r⟩) :
    (checkQuota lims clock nowMin nowMs snapshot p k s).2.pendingUsage =
      (fun q => s.pendingUsage q +
        if q = usageKey clock.date (normalizeProviderId p) k then 1 else 0)
    ∧ (checkQuota lims clock nowMin nowMs snapshot p k s).2.pendingAudit =
      (fun q => s.pendingAudit q +
        if q = auditKey clock.minute (normalizeProviderId p) k (auditOutcomeOfLimit r)
          then 1 else 0)
    ∧ (checkQuota lims clock nowMin nowMs snapshot p k s).2.globalBuf =
      (fun q => s.globalBuf q + (if q = kindStr k ++ "_total" then 1 else 0) +
        (if q = kindStr k ++ "_rate_limited" then 1 else 0)) := by
  have deltas : ∀ r' : LimitReason,
      (recordLimitHit clock nowMin nowMs p k r' s).pendingUsage =
        (fun q => s.pendingUsage q +
          if q = usageKey clock.date (normalizeProviderId p) k then 1 else 0)
      ∧ (recordLimitHit clock nowMin nowMs p k r' s).pendingAudit =
        (fun q => s.pendingAudit q +
          if q = auditKey clock.minute (normalizeProviderId p) k (auditOutcomeOfLimit r')
            then 1 else 0)
      ∧ (recordLimitHit clock nowMin nowMs p k r' s).globalBuf =
        (fun q => s.globalBuf q + (if q = kindStr k ++ "_total" then 1 else 0) +
          (if q = kindStr k ++ "_rate_limited" then 1 else 0)) := by
    intro r'
    refine ⟨funext fun q => ?_, funext fun q => ?_, funext fun q => ?_⟩ <;>
      simp only [recordLimitHit, bumpRpm, bufferUsage, bufferAudit, bumpGlobal,
        mergeUsageToCache]
    · exact update1 s.pendingUsage _ q
    · exact update1 s.pendingAudit _ q
    · exact update2 s.globalBuf _ _ q
  by_cases hd : dailyLimitOf lims k > 0 ∧ snapshot.get k ≥ dailyLimitOf lims k
  · have hr : r = .daily := by
      have h' := h
      simp [checkQuota, hd] at h'
      exact h'.symm
    have hs : (checkQuota lims clock nowMin nowMs snapshot p k s).2 =
        recordLimitHit clock nowMin nowMs p k .daily s := by
      simp [checkQuota, hd]
    rw [hs, hr]
    exact deltas .daily
  · by_cases hrp : rpmLimitOf lims k > 0 ∧ getRpmCount s nowMin p k ≥ rpmLimitOf lims k
    · have hr : r = .rpm := by
        have h' := h
        simp [checkQuota, hd, hrp] at h'
        exact h'.symm
      have hs : (checkQuota lims clock nowMin nowMs snapshot p k s).2 =
          recordLimitHit clock nowMin nowMs p k .rpm s := by
        simp [checkQuota, hd, hrp]
      rw [hs, hr]
      exact deltas .rpm
    · exfalso
      have h' := h
      simp [checkQuota, hd, hrp] at h'

/-- C3 witness: at the counterexample's input the denial buffers the
`limited:daily` audit delta. -/
theorem limit_hit_buffered_deltas_witness :
    (checkQuota ⟨1, 60, 0, 0⟩ ⟨"2025-01-01", "2025-01-01 00:00"⟩ 0 0
        ⟨1, 0⟩ "acct" .chat emptyQuotaState).2.pendingAudit
      (auditKey "2025-01-01 00:00" "acct" .chat "limited:daily") = 1 := by
  have h := limit_hit_buffered_deltas ⟨1, 60, 0, 0⟩ ⟨"2025-01-01", "2025-01-01 00:00"⟩
    0 0 ⟨1, 0⟩ "acct" .chat emptyQuotaState .daily (by decide)
  rw [h.2.1]
  decide

/-! ### C2 — rotation of `currentIndex` -/

/-- Once `attempt ≥ 1`, the loop never writes `this.currentIndex` again:
the write is guarded by `if (attempt === 0)`. -/
theorem dispatchGo_finalIndex_of_pos (ps : List PoolProvider) (start : Nat) :
    ∀ fuel attempt cur acc, 1 ≤ attempt →
      (dispatchGo ps start attempt fuel cur acc).finalIndex = cur := by
  intro fuel
  induction fuel with
  | zero => intro attempt cur acc _; rfl
  | succ n ih =>
      intro attempt cur acc h
      have hne : ¬(attempt = 0) := by omega
      rw [dispatchGo]
      simp only [hne, if_false, ite_false, reduceIte]
      split
      · exact ih (attempt + 1) cur acc (by omega)
      · split
        · exact ih (attempt + 1) cur acc (by omega)
        · split
          · rfl
          · exact ih (attempt + 1) cur _ (by omega)

/-- C2 counterexample: pool of 3, `currentIndex = 0`, provider 0 in cooldown
(skipped), provider 1 is the first actually-attempted provider and succeeds.
The claim demands `currentIndex = (1 + 1) % 3 = 2` after the dispatch, but the
code leaves it at 0 because the advance happens only when `attempt === 0`. -/
theorem rotation_advance_counterexample :
    (runDispatch [⟨false, true, true⟩, ⟨true, true, true⟩, ⟨true, true, true⟩] 0).attempted.head?
      = some 1
    ∧ (runDispatch [⟨false, true, true⟩, ⟨true, true, true⟩, ⟨true, true, true⟩] 0).winner
      = some 1
    ∧ ¬((runDispatch [⟨false, true, true⟩, ⟨true, true, true⟩, ⟨true, true, true⟩] 0).finalIndex
      = (1 + 1) % 3) := by
  decide

/-- C2 (amended): the advance of `currentIndex` happens exactly when the
candidate inspected at loop offset 0 (namely index `startIndex`) is actually
attempted — it passed the circuit-breaker rule (`canAttempt`, or it is the only
provider) and admission — in which case `currentIndex` becomes
`(startIndex + 1) mod N` whether or not the upstream call succeeds; if that
first candidate is skipped, `currentIndex` is left unchanged for the whole
dispatch, whichever provider is attempted or succeeds later. -/
theorem rotation_advance_only_first_candidate (ps : List PoolProvider) (start : Nat)
    (h : start < ps.length) :
    ((((ps.getD start ⟨true, true, true⟩).canAttempt = true ∨ ps.length = 1)
        ∧ (ps.getD start ⟨true, true, true⟩).quotaAllowed = true) →
      (runDispatch ps start).finalIndex = (start + 1) % ps.length)
    ∧ (¬(((ps.getD start ⟨true, true, true⟩).canAttempt = true ∨ ps.length = 1)
        ∧ (ps.getD start ⟨true, true, true⟩).quotaAllowed = true) →
      (runDispatch ps start).finalIndex = start) := by
  obtain ⟨m, hm⟩ : ∃ m, ps.length = m + 1 := ⟨ps.length - 1, by omega⟩
  have hmod : (start + 0) % ps.length = start := by
    simp [Nat.mod_eq_of_lt h]
  have hstep : runDispatch ps start = dispatchGo ps start 0 (m + 1) start [] := by
    unfold runDispatch
    rw [hm]
  constructor
  · rintro ⟨hca, hq⟩
    rw [hstep, dispatchGo, hmod]
    have hskip : ¬(¬(ps.getD start ⟨true, true, true⟩).canAttempt = true
        ∧ 0 < ps.length - 1) := by
      rintro ⟨hcan, hlen⟩
      rcases hca with hca | hca
      · exact hcan hca
      · omega
    rw [if_neg hskip, if_neg (fun hc => hc hq)]
    split
    · simp
    · exact dispatchGo_finalIndex_of_pos ps start m 1 _ [start] (by omega)
  · intro hno
    rw [hstep, dispatchGo, hmod]
    by_cases hskip : ¬(ps.getD start ⟨true, true, true⟩).canAttempt = true
        ∧ 0 < ps.length - 1
    · rw [if_pos hskip]
      exact dispatchGo_finalIndex_of_pos ps start m 1 start [] (by omega)
    · have hq : ¬(ps.getD start ⟨true, true, true⟩).quotaAllowed = true := by
        rcases not_and_or.mp hno with hca | hq
        · exfalso
          apply hskip
          constructor
          · exact fun hc => hca (Or.inl hc)
          · have : ¬ps.length = 1 := fun h1 => hca (Or.inr h1)
            omega
        · exact hq
      rw [if_neg hskip, if_pos hq]
      exact dispatchGo_finalIndex_of_pos ps start m 1 start [] (by omega)

/-- C2 witness: with the start candidate attempted (and succeeding), the index
advances past it; pool of 2 starting at 0 ends at 1. -/
theorem rotation_advance_only_first_candidate_witness :
    (runDispatch [⟨true, true, true⟩, ⟨true, true, true⟩] 0).finalIndex = (0 + 1) % 2 :=
  (rotation_advance_only_first_candidate [⟨true, true, true⟩, ⟨true, true, true⟩] 0
    (by decide)).1 (by decide)

/-! ### C9 — a pool of one always attempts its provider -/

/-- C9: in a pool of size 1, a provider in circuit-breaker cooldown
(`canAttempt()` false) is attempted anyway — the skip rule exempts the last
candidate — provided admission allows the request. -/
theorem single_provider_cooldown_attempted (p : PoolProvider)
    (h1 : p.canAttempt = false) (h2 : p.quotaAllowed = true) :
    (runDispatch [p] 0).attempted = [0] := by
  cases hs : p.succeeds <;>
    simp [runDispatch, dispatchGo, h1, h2, hs]

/-- C9 witness: a cooling-down, admission-allowed, failing provider in a
singleton pool is still attempted. -/
theorem single_provider_cooldown_attempted_witness :
    (runDispatch [⟨false, true, false⟩] 0).attempted = [0] :=
  single_provider_cooldown_attempted ⟨false, true, false⟩ rfl rfl

/-! ### C6 — classification of upstream 429 bodies -/

/-- A pattern occurs in the image of a map iff some contiguous run of the
original list maps onto it. -/
theorem occursInMap_iff {α β : Type} (f : α → β) (pat : List β) (l : List α) :
    pat <:+: l.map f ↔ ∃ m, m <:+: l ∧ m.map f = pat := by
  constructor
  · rintro ⟨s, t, hst⟩
    refine ⟨(l.drop s.length).take pat.length, ?_, ?_⟩
    · exact ⟨l.take s.length, (l.drop s.length).drop pat.length, by
        rw [List.append_assoc, List.take_append_drop, List.take_append_drop]⟩
    · have hdrop : List.map f (l.drop s.length) = pat ++ t := by
        rw [List.map_drop, ← hst, List.append_assoc, List.drop_left]
      rw [List.map_take, hdrop, List.take_left]
  · rintro ⟨m, hm, rfl⟩
    exact List.IsInfix.map f hm

/-- C6: an upstream 429 is classified as a free-tier quota exhaustion — audit
outcome `error:upstream_quota_exceeded`, error message
`Quota exceeded (Qwen free tier)` — exactly when the response body contains
`insufficient_quota` or `free allocated quota exceeded` up to letter case;
any other 429 body yields audit outcome `error:upstream_429` and the message
`Rate limited`. -/
theorem upstream429_classification (body : List Char) :
    ((occursCaseInsensitive quotaNeedle1 body ∨ occursCaseInsensitive quotaNeedle2 body) →
      classify429 body = ⟨"upstream_quota_exceeded", "Quota exceeded (Qwen free tier)"⟩
      ∧ auditOutcomeOfFailure (classify429 body).reason = "error:upstream_quota_exceeded")
    ∧ (¬(occursCaseInsensitive quotaNeedle1 body ∨ occursCaseInsensitive quotaNeedle2 body) →
      classify429 body = ⟨"upstream_429", "Rate limited"⟩
      ∧ auditOutcomeOfFailure (classify429 body).reason = "error:upstream_429") := by
  have hiff : (quotaNeedle1 <:+: body.map Char.toLower
      ∨ quotaNeedle2 <:+: body.map Char.toLower) ↔
      (occursCaseInsensitive quotaNeedle1 body ∨ occursCaseInsensitive quotaNeedle2 body) := by
    unfold occursCaseInsensitive
    rw [occursInMap_iff, occursInMap_iff]
  constructor
  · intro hocc
    have hcond := hiff.mpr hocc
    rw [classify429, if_pos hcond]
    exact ⟨rfl, rfl⟩
  · intro hocc
    have hcond := fun hc => hocc (hiff.mp hc)
    rw [classify429, if_neg hcond]
    exact ⟨rfl, rfl⟩

/-- C6 witness: a mixed-case body containing `Insufficient_Quota` is classified
as the free-tier quota error. -/
theorem upstream429_classification_witness :
    classify429 "429 Too Many Requests: Insufficient_Quota".data =
      ⟨"upstream_quota_exceeded", "Quota exceeded (Qwen free tier)"⟩ :=
  ((upstream429_classification "429 Too Many Requests: Insufficient_Quota".data).1
    (Or.inl ⟨"Insufficient_Quota".data, by decide, by decide⟩)).1

/-! ### C7 — the 5-minute refresh window of `getValidCredentials` -/

/-- C7: with stored credentials present, `getValidCredentials` calls
`refreshToken(creds.refresh_token)` iff the expiry timestamp is present and
non-zero and `now ≥ expiry − 300000`; an expiry of exactly `now + 300000`
triggers the refresh, while a zero or absent expiry returns the credentials
without refreshing. -/
theorem getValid_refresh_condition (c : QwenCredentials) (now : Int) :
    (getValidCredentialsM (some c) now = .refreshed c.refresh_token ↔
      ∃ e, c.expiry_date = some e ∧ e ≠ 0 ∧ now ≥ e - 300000)
    ∧ (0 ≤ now → c.expiry_date = some (now + 300000) →
      getValidCredentialsM (some c) now = .refreshed c.refresh_token)
    ∧ (c.expiry_date = some 0 ∨ c.expiry_date = none →
      getValidCredentialsM (some c) now = .returned c) := by
  refine ⟨?_, ?_, ?_⟩
  · cases he : c.expiry_date with
    | none =>
        simp [getValidCredentialsM, shouldRefreshAt, he, refreshWindowMs]
    | some e =>
        by_cases h0 : e = 0
        · simp [getValidCredentialsM, shouldRefreshAt, he, h0, refreshWindowMs]
        · by_cases hw : now ≥ e - 300000
          · simp [getValidCredentialsM, shouldRefreshAt, he, h0, hw, refreshWindowMs]
            omega
          · simp [getValidCredentialsM, shouldRefreshAt, he, h0, hw, refreshWindowMs]
            omega
  · intro hnow he
    have h0 : now + 300000 ≠ 0 := by omega
    simp [getValidCredentialsM, shouldRefreshAt, he, h0, refreshWindowMs]
  · intro he
    rcases he with he | he <;>
      simp [getValidCredentialsM, shouldRefreshAt, he, refreshWindowMs]

/-- C7 witness: expiry exactly `now + 300000` (with `now = 700000`) triggers a
refresh carrying the stored refresh token. -/
theorem getValid_refresh_condition_witness :
    getValidCredentialsM
      (some ⟨"at", "rt", some 1000000, none, none⟩) 700000 = .refreshed "rt" :=
  (getValid_refresh_condition ⟨"at", "rt", some 1000000, none, none⟩ 700000).2.1
    (by decide) rfl

/-! ### C1 — behaviour of `refreshToken` when the lock is contended -/

/-- The polling loop never POSTs to the token endpoint, never saves
credentials, loads at most `fuel` times, and sleeps 500 ms once per load. -/
theorem waitLoop_effects (reads : Nat → Option QwenCredentials) (oldRt : String) :
    ∀ fuel i,
      AuthEffect.tokenEndpointPost ∉ (waitLoop reads oldRt i fuel).2
      ∧ (∀ c, AuthEffect.saveCreds c ∉ (waitLoop reads oldRt i fuel).2)
      ∧ (waitLoop reads oldRt i fuel).2.count .loadCreds ≤ fuel
      ∧ (waitLoop reads oldRt i fuel).2.count (.sleep 500) =
          (waitLoop reads oldRt i fuel).2.count .loadCreds := by
  intro fuel
  induction fuel with
  | zero =>
      intro i
      refine ⟨by simp [waitLoop], fun c => by simp [waitLoop], by simp [waitLoop],
        by simp [waitLoop]⟩
  | succ n ih =>
      intro i
      have step := ih (i + 1)
      rw [waitLoop]
      cases hr : reads i with
      | none =>
          refine ⟨?_, fun c => ?_, ?_, ?_⟩ <;>
            simp [List.count_append, List.count_cons, step.1, step.2.1 _, step.2.2.1,
              step.2.2.2]
      | some c0 =>
          by_cases hd : c0.refresh_token ≠ oldRt
          · simp [hd]
          · refine ⟨?_, fun c => ?_, ?_, ?_⟩ <;>
              simp [hd, List.count_append, List.count_cons, step.1, step.2.1 _,
                step.2.2.1, step.2.2.2]

/-- The polling loop returns the first credential observed with a different
refresh token. -/
theorem waitLoop_found (reads : Nat → Option QwenCredentials) (oldRt : String) :
    ∀ fuel i j c, i ≤ j → j < i + fuel →
      reads j = some c → c.refresh_token ≠ oldRt →
      (∀ i', i ≤ i' → i' < j → ¬ pollDiffers reads oldRt i') →
      (waitLoop reads oldRt i fuel).1 = .ok c := by
  intro fuel
  induction fuel with
  | zero => intro i j c hij hlt; omega
  | succ n ih =>
      intro i j c hij hlt hr hdiff hfirst
      rw [waitLoop]
      cases hri : reads i with
      | none =>
          have hne : i ≠ j := fun he => by rw [he, hr] at hri; cases hri
          exact ih (i + 1) j c (by omega) (by omega) hr hdiff
            (fun i' h1 h2 => hfirst i' (by omega) h2)
      | some c0 =>
          by_cases hd : c0.refresh_token ≠ oldRt
          · have hji : j = i := by
              by_contra hne
              exact hfirst i (le_refl i) (by omega) ⟨c0, hri, hd⟩
            rw [hji, hri] at hr
            cases hr
            simp [hd]
          · have hne : i ≠ j := by
              intro he
              rw [he, hr] at hri
              cases hri
              exact hd hdiff
            simp only [hd, ite_false, reduceIte]
            exact ih (i + 1) j c (by omega) (by omega) hr hdiff
              (fun i' h1 h2 => hfirst i' (by omega) h2)

/-- If no poll observes a rotated token, the loop times out with the fixed
error message after exhausting every poll. -/
theorem waitLoop_timeout (reads : Nat → Option QwenCredentials) (oldRt : String) :
    ∀ fuel i,
      (∀ i', i ≤ i' → i' < i + fuel → ¬ pollDiffers reads oldRt i') →
      (waitLoop reads oldRt i fuel).1 =
        .error "Timeout or failure waiting for token update"
      ∧ (waitLoop reads oldRt i fuel).2.count .loadCreds = fuel := by
  intro fuel
  induction fuel with
  | zero => intro i _; exact ⟨rfl, rfl⟩
  | succ n ih =>
      intro i hnone
      have step := ih (i + 1) (fun i' h1 h2 => hnone i' (by omega) (by omega))
      rw [waitLoop]
      cases hri : reads i with
      | none =>
          refine ⟨by simp [step.1], ?_⟩
          simp [List.count_append, List.count_cons, step.2]
      | some c0 =>
          by_cases hd : c0.refresh_token ≠ oldRt
          · exact absurd ⟨c0, hri, hd⟩ (hnone i (le_refl i) (by omega))
          · refine ⟨by simp [hd, step.1], ?_⟩
            simp [hd, List.count_append, List.count_cons, step.2]

/-- C1: when the distributed-lock acquisition for
`token_refresh:<credsKey>` (60 s TTL) fails, `refreshToken` performs no
token-endpoint POST and no credential save; it polls the store up to 30 times
(one 500 ms sleep per poll), returns the stored credential as soon as its
refresh token differs from the argument, and fails with
`Timeout or failure waiting for token update` after 30 fruitless polls. -/
theorem refreshToken_lock_contention_waits (env : RefreshEnv) (credsKey oldRt : String)
    (h : env.lockToken = none) :
    AuthEffect.tokenEndpointPost ∉ (refreshTokenM env credsKey oldRt).2
    ∧ (∀ c, AuthEffect.saveCreds c ∉ (refreshTokenM env credsKey oldRt).2)
    ∧ (refreshTokenM env credsKey oldRt).2.head? =
        some (.acquireLock ("token_refresh:" ++ credsKey) 60)
    ∧ (refreshTokenM env credsKey oldRt).2.count .loadCreds ≤ 30
    ∧ (refreshTokenM env credsKey oldRt).2.count (.sleep 500) =
        (refreshTokenM env credsKey oldRt).2.count .loadCreds
    ∧ (∀ j c, j < 30 → env.reads j = some c → c.refresh_token ≠ oldRt →
        (∀ i, i < j → ¬ pollDiffers env.reads oldRt i) →
        (refreshTokenM env credsKey oldRt).1 = .ok c)
    ∧ ((∀ i, i < 30 → ¬ pollDiffers env.reads oldRt i) →
        (refreshTokenM env credsKey oldRt).1 =
          .error "Timeout or failure waiting for token update"
        ∧ (refreshTokenM env credsKey oldRt).2.count .loadCreds = 30) := by
  have hred : refreshTokenM env credsKey oldRt =
      ((waitForTokenUpdate env.reads oldRt).1,
       .acquireLock ("token_refresh:" ++ credsKey) 60 ::
         (waitForTokenUpdate env.reads oldRt).2) := by
    rw [refreshTokenM, h]
  have heffects := waitLoop_effects env.reads oldRt 30 0
  have hacq : (AuthEffect.acquireLock ("token_refresh:" ++ credsKey) 60) ≠
      AuthEffect.loadCreds := by intro hc; cases hc
  have hacqs : (AuthEffect.acquireLock ("token_refresh:" ++ credsKey) 60) ≠
      AuthEffect.sleep 500 := by intro hc; cases hc
  rw [hred]
  refine ⟨?_, fun c => ?_, rfl, ?_, ?_, ?_, ?_⟩
  · intro hmem
    rcases List.mem_cons.mp hmem with hc | hc
    · cases hc
    · exact heffects.1 hc
  · intro hmem
    rcases List.mem_cons.mp hmem with hc | hc
    · cases hc
    · exact heffects.2.1 c hc
  · rw [List.count_cons_of_ne (fun hc => by cases hc)]
    exact heffects.2.2.1
  · rw [List.count_cons_of_ne (fun hc => by cases hc),
      List.count_cons_of_ne (fun hc => by cases hc)]
    exact heffects.2.2.2
  · intro j c hj hr hdiff hfirst
    exact waitLoop_found env.reads oldRt 30 0 j c (Nat.zero_le j) (by omega) hr hdiff
      (fun i' _ h2 => hfirst i' h2)
  · intro hnone
    have ht := waitLoop_timeout env.reads oldRt 30 0
      (fun i' _ h2 => hnone i' (by omega))
    refine ⟨ht.1, ?_⟩
    rw [List.count_cons_of_ne (fun hc => by cases hc)]
    exact ht.2

/-- C1 witness: lock contention with the rotated credential visible at the
third poll is resolved by returning that credential, with no token-endpoint
POST in the effect trace. -/
theorem refreshToken_lock_contention_waits_witness :
    (refreshTokenM
      ⟨none,
       fun i => if i = 2 then some ⟨"at2", "new", none, none, none⟩ else none,
       none, .badJson, 0⟩ "acct" "old").1 = .ok ⟨"at2", "new", none, none, none⟩
    ∧ AuthEffect.tokenEndpointPost ∉
      (refreshTokenM
        ⟨none,
         fun i => if i = 2 then some ⟨"at2", "new", none, none, none⟩ else none,
         none, .badJson, 0⟩ "acct" "old").2 := by
  have h := refreshToken_lock_contention_waits
    ⟨none,
     fun i => if i = 2 then some ⟨"at2", "new", none, none, none⟩ else none,
     none, .badJson, 0⟩ "acct" "old" rfl
  refine ⟨h.2.2.2.2.2.1 2 ⟨"at2", "new", none, none, none⟩ (by decide) rfl (by decide)
    ?_, h.1⟩
  intro i hi
  intro hdiff
  rcases hdiff with ⟨c, hc, hne⟩
  have : ¬(i = 2) := by omega
  simp [this] at hc

/-! ### C8 / C10 — the SSE de-duplication transformer -/

/-- A `data:` event never trims to the empty string (its first character is
`'d'`, which is not whitespace). -/
theorem trimL_ne_nil_of_dataMark {ev : List Char} (h : dataMark <+: ev) :
    trimL ev ≠ [] := by
  obtain ⟨t, ht⟩ := h
  intro hnil
  have hev : ev = 'd' :: ("ata: ".data ++ t) := by rw [← ht]; rfl
  unfold trimL at hnil
  rw [List.reverse_eq_nil_iff, List.dropWhile_eq_nil_iff] at hnil
  have hd : ('d' : Char) ∈ (ev.dropWhile isWs).reverse := by
    rw [hev, List.dropWhile_cons]
    simp [isWs]
  have := hnil 'd' hd
  simp [isWs] at this

/-- Characterization of `eventTruthyContent`. -/
theorem eventTruthyContent_eq_some {P : ParseOracle} {ev c : List Char} :
    eventTruthyContent P ev = some c ↔
      dataMark <+: ev ∧ trimL (ev.drop 6) ≠ doneLit
      ∧ P (ev.drop 6) = .delta (some c) ∧ c ≠ [] := by
  unfold eventTruthyContent
  split
  · rename_i hcond
    cases hP : P (ev.drop 6) with
    | fail => simp [hP, hcond]
    | noDelta => simp [hP, hcond]
    | delta oc =>
        cases oc with
        | none => simp [hP, hcond]
        | some c0 =>
            by_cases hc0 : c0 = []
            · simp [hP, hcond, hc0]
            · simp [hP, hcond, hc0]
              rintro rfl
              exact hc0
  · rename_i hcond
    simp only [not_and_or] at hcond
    constructor
    · rintro ⟨⟩
    · rintro ⟨hpre, hdone, _, _⟩
      rcases hcond with hc | hc
      · exact absurd hpre hc
      · exact absurd hdone (not_not.mpr (not_not.mp hc))

/-- A truthy event behaves like pure de-duplication: dropped iff its content
equals the marker, otherwise emitted, updating the marker. -/
theorem processEvent_of_truthy {P : ParseOracle} {ev c : List Char} (last : List Char)
    (h : eventTruthyContent P ev = some c) :
    processEvent P last ev = if c = last then (false, last) else (true, c) := by
  obtain ⟨hpre, hdone, hP, hne⟩ := eventTruthyContent_eq_some.mp h
  unfold processEvent
  rw [if_neg (trimL_ne_nil_of_dataMark hpre), if_pos hpre, if_neg hdone, hP]
  by_cases hcl : c = last
  · subst hcl
    simp [hne]
  · simp [hne, hcl]

/-- An event without truthy content never moves the de-duplication marker. -/
theorem processEvent_snd_of_none {P : ParseOracle} {ev : List Char} (last : List Char)
    (h : eventTruthyContent P ev = none) :
    (processEvent P last ev).2 = last := by
  by_cases htrim : trimL ev = []
  · unfold processEvent
    rw [if_pos htrim]
  · by_cases hpre : dataMark <+: ev
    · by_cases hdone : trimL (ev.drop 6) = doneLit
      · unfold processEvent
        rw [if_neg htrim, if_pos hpre, if_pos hdone]
      · cases hP : P (ev.drop 6) with
        | fail =>
            unfold processEvent
            rw [if_neg htrim, if_pos hpre, if_neg hdone, hP]
        | noDelta =>
            unfold processEvent
            rw [if_neg htrim, if_pos hpre, if_neg hdone, hP]
        | delta oc =>
            cases oc with
            | none =>
                unfold processEvent
                rw [if_neg htrim, if_pos hpre, if_neg hdone, hP]
            | some c0 =>
                have hc0 : c0 = [] := by
                  by_contra hne
                  have hsome : eventTruthyContent P ev = some c0 := by
                    unfold eventTruthyContent
                    rw [if_pos ⟨hpre, hdone⟩, hP]
                    simp [hne]
                  rw [hsome] at h
                  cases h
                unfold processEvent
                rw [if_neg htrim, if_pos hpre, if_neg hdone, hP]
                simp [hc0]
    · unfold processEvent
      rw [if_neg htrim, if_neg hpre]

/-- The first emitted event after processing from marker `last`, if truthy,
differs from `last` (all earlier drops leave the marker untouched). -/
theorem processEvents_head_content (P : ParseOracle) :
    ∀ evs last e c, ((processEvents P last evs).1).head? = some e →
      eventTruthyContent P e = some c → c ≠ last := by
  intro evs
  induction evs with
  | nil => intro last e c h; cases h
  | cons ev rest ih =>
      intro last e c hh he
      cases hc : eventTruthyContent P ev with
      | none =>
          have hsnd := processEvent_snd_of_none last hc
          cases hb : (processEvent P last ev).1 with
          | true =>
              have hee : e = ev := by
                simp only [processEvents, hb, if_true, List.head?_cons,
                  Option.some.injEq, reduceIte] at hh
                exact hh.symm
              rw [hee, hc] at he
              cases he
          | false =>
              simp only [processEvents, hb, if_false, reduceIte] at hh
              rw [hsnd] at hh
              exact ih last e c hh he
      | some c0 =>
          have hpe := processEvent_of_truthy last hc
          by_cases hcl : c0 = last
          · rw [if_pos hcl] at hpe
            simp only [processEvents, hpe, if_false, reduceIte] at hh
            exact ih last e c hh he
          · rw [if_neg hcl] at hpe
            simp only [processEvents, hpe, if_true, List.head?_cons,
              Option.some.injEq, reduceIte] at hh
            rcases hh with rfl
            rw [hc] at he
            cases he
            exact hcl

/-- No two adjacent emitted events carry the same non-empty content. -/
theorem processEvents_chain (P : ParseOracle) :
    ∀ evs last, List.Chain' (dupFree P) (processEvents P last evs).1 := by
  intro evs
  induction evs with
  | nil => intro last; exact List.chain'_nil
  | cons ev rest ih =>
      intro last
      cases hc : eventTruthyContent P ev with
      | none =>
          have hsnd := processEvent_snd_of_none last hc
          cases hb : (processEvent P last ev).1 with
          | true =>
              simp only [processEvents, hb, if_true, reduceIte]
              rw [hsnd]
              refine List.chain'_cons'.mpr ⟨?_, ih last⟩
              intro b _ cc hev
              rw [hc] at hev
              cases hev
          | false =>
              simp only [processEvents, hb, if_false, reduceIte]
              rw [hsnd]
              exact ih last
      | some c0 =>
          have hpe := processEvent_of_truthy last hc
          by_cases hcl : c0 = last
          · rw [if_pos hcl] at hpe
            simp only [processEvents, hpe, if_false, reduceIte]
            exact ih last
          · rw [if_neg hcl] at hpe
            simp only [processEvents, hpe, if_true, reduceIte]
            refine List.chain'_cons'.mpr ⟨?_, ih c0⟩
            intro b hb cc hev hbc
            have hcc : cc = c0 := by
              rw [hc] at hev
              cases hev
              rfl
            rw [hcc] at hbc
            exact processEvents_head_content P rest c0 b c0 hb hbc rfl

/-- Processing a concatenation of event lists threads the marker through. -/
theorem processEvents_append (P : ParseOracle) :
    ∀ l1 l2 last,
      processEvents P last (l1 ++ l2) =
        ((processEvents P last l1).1 ++
          (processEvents P (processEvents P last l1).2 l2).1,
         (processEvents P (processEvents P last l1).2 l2).2) := by
  intro l1
  induction l1 with
  | nil => intro l2 last; simp [processEvents]
  | cons ev rest ih =>
      intro l2 last
      cases hb : (processEvent P last ev).1 <;>
        simp [processEvents, hb, ih]

/-- The events emitted by a chunked run are the events emitted by processing
some single event sequence from the initial marker. -/
theorem runChunks_emits (P : ParseOracle) :
    ∀ chunks st, ∃ evs,
      (runChunks P st chunks).2 = (processEvents P st.lastContent evs).1
      ∧ (runChunks P st chunks).1.lastContent =
          (processEvents P st.lastContent evs).2 := by
  intro chunks
  induction chunks with
  | nil => intro st; exact ⟨[], by simp [runChunks, processEvents]⟩
  | cons ch rest ih =>
      intro st
      by_cases hch : ch = []
      · obtain ⟨evs, h1, h2⟩ := ih st
        exact ⟨evs, by simp [runChunks, transformChunk, hch, h1],
          by simp [runChunks, transformChunk, hch, h2]⟩
      · obtain ⟨evs2, h1, h2⟩ := ih
          ⟨(splitEvts (st.buffer ++ ch)).getLastD [],
           (processEvents P st.lastContent
             ((splitEvts (st.buffer ++ ch)).dropLast)).2⟩
        refine ⟨(splitEvts (st.buffer ++ ch)).dropLast ++ evs2, ?_, ?_⟩
        · simp only [runChunks, transformChunk, hch, if_neg, reduceIte]
          rw [processEvents_append]
          simp only [List.append_cancel_left_eq]
          exact h1
        · simp only [runChunks, transformChunk, hch, if_neg, reduceIte]
          rw [processEvents_append]
          exact h2

/-- C8: the transformer's output never contains two adjacent complete events
whose parsed `choices[0].delta.content` are equal non-empty strings; an event
whose trimmed payload is `[DONE]` is always re-emitted unchanged (marker
untouched), and so is a `data:` event whose payload fails to parse.  (The
`flush` callback can additionally emit a trailing unterminated fragment, which
is not a complete SSE event.) -/
theorem sse_no_adjacent_duplicate_content (P : ParseOracle) (chunks : List (List Char)) :
    List.Chain' (dupFree P) (emittedEvents P chunks)
    ∧ (∀ last ev, dataMark <+: ev → trimL (ev.drop 6) = doneLit →
        processEvent P last ev = (true, last))
    ∧ (∀ last ev, dataMark <+: ev → trimL (ev.drop 6) ≠ doneLit →
        P (ev.drop 6) = .fail → processEvent P last ev = (true, last)) := by
  refine ⟨?_, ?_, ?_⟩
  · obtain ⟨evs, h1, _⟩ := runChunks_emits P chunks initialSSEState
    rw [emittedEvents, h1]
    exact processEvents_chain P evs initialSSEState.lastContent
  · intro last ev hpre hdone
    unfold processEvent
    rw [if_neg (trimL_ne_nil_of_dataMark hpre), if_pos hpre, if_pos hdone]
  · intro last ev hpre hdone hP
    unfold processEvent
    rw [if_neg (trimL_ne_nil_of_dataMark hpre), if_pos hpre, if_neg hdone, hP]

/-- C8 witness: a stream repeating the same content back-to-back is emitted
without adjacent duplicates, and a `[DONE]` event passes through unchanged. -/
theorem sse_no_adjacent_duplicate_content_witness :
    List.Chain' (dupFree sampleOracle)
      (emittedEvents sampleOracle ["data: p1\n\ndata: p1\n\n".data])
    ∧ processEvent sampleOracle [] "data: [DONE]".data = (true, []) :=
  ⟨(sse_no_adjacent_duplicate_content sampleOracle ["data: p1\n\ndata: p1\n\n".data]).1,
   (sse_no_adjacent_duplicate_content sampleOracle []).2.1 [] "data: [DONE]".data
     (by decide) (by decide)⟩

/-- C10: a `data:` event whose parsed `delta.content` is absent, null or the
empty string is always emitted and never updates the last-content marker, so
consecutive empty-content delta events are never dropped. -/
theorem sse_empty_content_passthrough (P : ParseOracle) (last ev : List Char)
    (h1 : dataMark <+: ev) (h2 : trimL (ev.drop 6) ≠ doneLit)
    (h3 : P (ev.drop 6) = .delta none ∨ P (ev.drop 6) = .delta (some [])) :
    processEvent P last ev = (true, last) := by
  unfold processEvent
  rw [if_neg (trimL_ne_nil_of_dataMark h1), if_pos h1, if_neg h2]
  rcases h3 with h3 | h3 <;> rw [h3]
  simp

/-- C10 witness: an empty-content delta event passes through with the marker
unchanged. -/
theorem sse_empty_content_passthrough_witness :
    processEvent emptyDeltaOracle ['z'] "data: p2".data = (true, ['z']) :=
  sse_empty_content_passthrough emptyDeltaOracle ['z'] "data: p2".data
    (by decide) (by decide) (Or.inl rfl)

end LlmGate
